import Mathlib

/-!
Verification development for the seamless English speaking practice
script `speaking_practicing.py`.

The program is shallowly embedded.  Pure fragments become Lean functions
over `String`, `List Char`, `Nat` and `ℚ`; the effectful collaborators
(speech recognition, text-to-speech playback, the LLM chat endpoint,
keyboard input and the wall clock) are modelled as explicit input data
consumed by the embedded control flow, so that each code path of the
source is a computable branch here.  Clock readings are rationals and
Python string operations are re-implemented structurally over character
lists so that every definition evaluates by `decide`.
-/

/-- Python prefix test: does the first list start with the second?
Used to build the substring test of Python's `in` operator. -/
def startsWithL : List Char → List Char → Bool
  | _, [] => true
  | [], _ :: _ => false
  | a :: as, b :: bs => a == b && startsWithL as bs

/-- Python substring test `needle in hay` (`str.__contains__`),
over explicit character lists. -/
def hasSubstrL : List Char → List Char → Bool
  | [], needle => needle.isEmpty
  | a :: t, needle => startsWithL (a :: t) needle || hasSubstrL t needle

/-- Python `str.lower()` (ASCII case folding, as `Char.toLower`),
returning the character list the source matches against. -/
def py_lower (s : String) : List Char := s.toList.map Char.toLower

/-- The `next`-class lexicon of `listen_for_command`
(`speaking_practicing.py:107`). -/
def next_lexicon : List String := ["next", "continue", "go", "skip"]

/-- The `repeat`-class lexicon of `listen_for_command`
(`speaking_practicing.py:109`). -/
def repeat_lexicon : List String := ["repeat", "again", "retry", "redo"]

/-- The `enter`-class lexicon of `listen_for_command`
(`speaking_practicing.py:111`). -/
def enter_lexicon : List String := ["enter", "okay", "yes", "ready"]

/-- Python `any(word in command for word in lexicon)`. -/
def matches_any (command : List Char) (lex : List String) : Bool :=
  lex.any (fun w => hasSubstrL command w.toList)

/-- Classification core of `listen_for_command`
(`speaking_practicing.py:104-119`): the recognized utterance is
lowercased, then matched against the three lexicons in priority order;
anything else (including the exception path of the source) yields
`"enter"`. -/
def listen_for_command (utterance : String) : String :=
  if matches_any (py_lower utterance) next_lexicon then "next"
  else if matches_any (py_lower utterance) repeat_lexicon then "repeat"
  else if matches_any (py_lower utterance) enter_lexicon then "enter"
  else "enter"

/-- Python `str.strip()` over a character list: drop leading and
trailing whitespace. -/
def py_strip (l : List Char) : List Char :=
  ((l.dropWhile Char.isWhitespace).reverse.dropWhile Char.isWhitespace).reverse

/-- Worker for Python `str.split()` with no separator: split on
whitespace runs, discarding empty words; `acc` is the reversed word
under construction. -/
def splitWsAux : List Char → List Char → List (List Char)
  | [], acc => if acc.isEmpty then [] else [acc.reverse]
  | c :: rest, acc =>
    if c.isWhitespace then
      if acc.isEmpty then splitWsAux rest [] else acc.reverse :: splitWsAux rest []
    else splitWsAux rest (c :: acc)

/-- Python `len(text.split())`: the word count used by the
short-answer check of `listen_for_speech` (`speaking_practicing.py:368`). -/
def py_word_count (s : String) : Nat := (splitWsAux s.toList []).length

/-- Python `continue_choice.strip().lower().startswith('s')`
(`speaking_practicing.py:371`). -/
def says_say_more (continue_choice : String) : Bool :=
  match (py_strip continue_choice.toList).map Char.toLower with
  | 's' :: _ => true
  | _ => false

/-- Outcome of one interaction with the speech recognition backend:
a transcript, `sr.UnknownValueError`, `sr.RequestError`, or
`sr.WaitTimeoutError`. -/
inductive RecogOutcome where
  | recognized (text : String)
  | unknownValue
  | requestError (err : String)
  | waitTimeout
deriving DecidableEq

/-- The external inputs one iteration of the `listen_for_speech` retry
loop can consume: the recognition outcome, the typed reply to the
short-answer prompt, and the outcome of the optional follow-up
capture. -/
structure AttemptInput where
  outcome : RecogOutcome
  continue_choice : String
  more : RecogOutcome
deriving DecidableEq

/-- How one iteration of the `listen_for_speech` loop ends: a returned
transcript, an immediate fall back to typed input, or a counted retry
failure. -/
inductive IterResult where
  | ret (text : String)
  | typedFallback
  | retryFail
deriving DecidableEq

/-- One iteration of the retry loop of `listen_for_speech`
(`speaking_practicing.py:356-399`): a recognized transcript of fewer
than 2 words offers one optional follow-up capture appended to the same
answer (a failure inside the extension is caught by the surrounding
handlers: unknown speech or timeout counts as a retry, a service error
falls back to typing); `sr.RequestError` falls back to typing
immediately; `sr.UnknownValueError` and `sr.WaitTimeoutError` count as
retries. -/
def runAttempt (a : AttemptInput) : IterResult :=
  match a.outcome with
  | .recognized text =>
    if py_word_count text < 2 then
      if says_say_more a.continue_choice then
        match a.more with
        | .recognized more_text => .ret (text ++ " " ++ more_text)
        | .unknownValue => .retryFail
        | .requestError _ => .typedFallback
        | .waitTimeout => .retryFail
      else .ret text
    else .ret text
  | .unknownValue => .retryFail
  | .requestError _ => .typedFallback
  | .waitTimeout => .retryFail

/-- `listen_for_speech` (`speaking_practicing.py:348-401`) with
`max_retries = 2`: at most two recognition attempts; a retry failure on
the second attempt, or any service error, returns the typed fallback
answer.  Totality of this function is the source's guarantee that no
recognition error propagates to the caller. -/
def listen_for_speech (a1 a2 : AttemptInput) (typed : String) : String :=
  match runAttempt a1 with
  | .ret t => t
  | .typedFallback => typed
  | .retryFail =>
    match runAttempt a2 with
    | .ret t => t
    | .typedFallback => typed
    | .retryFail => typed

/-- Shape of the dict-like `ollama.chat` reply at the `'message'` key:
the `'content'` key may be absent (a `KeyError` the source's `except`
then catches). -/
structure OllamaMessage where
  content : Option String
deriving DecidableEq

/-- Shape of the `ollama.chat` reply as `get_ai_feedback` inspects it:
its truthiness and the optional `'message'` entry. -/
structure OllamaResponse where
  truthy : Bool
  message : Option OllamaMessage
deriving DecidableEq

/-- Outcome of the `ollama.chat` call inside `get_ai_feedback`: either
a reply object or a raised exception with its string rendering. -/
inductive BackendOutcome where
  | ok (r : OllamaResponse)
  | raised (err : String)
deriving DecidableEq

/-- `get_ai_feedback` (`speaking_practicing.py:403-434`).  The prompt
built from the question, the learner's response and the level is sent
to the backend; a truthy reply carrying `'message'` returns
`response['message']['content']` verbatim (a missing `'content'` key
raises a `KeyError` caught by the same handler as any other
exception); a falsy reply or one without `'message'` returns the
generic encouragement; a raised exception returns the inline error
text.  The function is total into `String`: nothing re-raises. -/
def get_ai_feedback (user_response question difficulty : String)
    (outcome : BackendOutcome) : String :=
  let _system_prompt :=
    "You are an encouraging English conversation tutor. The student just answered: "
      ++ question ++ " Their response was: " ++ user_response
      ++ " Level: " ++ difficulty
  match outcome with
  | .raised e => "Good effort! Let's continue practicing. (Error: " ++ e ++ ")"
  | .ok r =>
    match r.truthy, r.message with
    | true, some m =>
      match m.content with
      | some c => c
      | none => "Good effort! Let's continue practicing. (Error: 'content')"
    | _, _ => "Great job speaking English! Keep practicing."

/-- The content of a clean backend success (truthy reply, `'message'`
present, `'content'` present), if any. -/
def backend_success_content : BackendOutcome → Option String
  | .ok ⟨true, some ⟨some c⟩⟩ => some c
  | _ => none

/-- `show_practice_stats` (`speaking_practicing.py:646-657`), reduced
to its percentage computation: session duration and the speaking-time
accumulator are the clock-derived inputs; `some p` means the guarded
branch executed and computed percentage `p` (the Python division, which
on a zero divisor raises `ZeroDivisionError`; ℚ totalizes it), `none`
means the branch was skipped.  The guard is
`SPEECH_AVAILABLE and self.speaking_time > 0` — it does not inspect
the session duration. -/
def show_practice_stats (speech_available : Bool)
    (speaking_time session_seconds : ℚ) : Option ℚ :=
  if speech_available = true ∧ 0 < speaking_time then
    some (speaking_time / session_seconds * 100)
  else none

/-- Python `str.lower()` as a `String` endomap. -/
def py_lower_s (s : String) : String := String.mk (py_lower s)

/-- The external inputs of one `listen_for_speech` call inside
`practice_conversation`, together with the two `time.time()` readings
taken around it (`speaking_start`, and the reading after the call). -/
structure CaptureInput where
  a1 : AttemptInput
  a2 : AttemptInput
  typed : String
  speaking_start : ℚ
  speaking_end : ℚ
deriving DecidableEq

/-- The answer text a capture yields. -/
def capture_text (c : CaptureInput) : String :=
  listen_for_speech c.a1 c.a2 c.typed

/-- The measured `speaking_duration = time.time() - speaking_start`
of a capture (`speaking_practicing.py:483`). -/
def capture_duration (c : CaptureInput) : ℚ :=
  c.speaking_end - c.speaking_start

/-- The control list of the post-feedback repeat cycle
(`speaking_practicing.py:545`). -/
def control_commands : List String :=
  ["next question", "next", "skip", "finish", "stop", "quit", "done"]

/-- External inputs of one repeat cycle inside the post-feedback menu:
the new capture and the feedback backend outcome for the new answer. -/
structure RepeatCycleInput where
  capture : CaptureInput
  backend : BackendOutcome
deriving DecidableEq

/-- The repeat cycle of the post-feedback menu
(`speaking_practicing.py:530-567`): collect a new answer and measure
`new_speaking_duration`; if the answer is non-empty and not a control
phrase, obtain feedback on it and append both as new entries to
`conversation_history`.  The speaking-time accumulator is passed
through untouched — the source never adds `new_speaking_duration` to
`self.speaking_time`. -/
def repeat_cycle (st : ℚ) (hist : List (String × String))
    (r : RepeatCycleInput) (question difficulty : String) :
    ℚ × List (String × String) :=
  let new_response := capture_text r.capture
  let _new_speaking_duration := capture_duration r.capture
  if new_response ≠ "" ∧ py_lower_s new_response ∉ control_commands then
    let new_feedback := get_ai_feedback new_response question difficulty r.backend
    (st, hist ++ [("user", new_response), ("assistant", new_feedback)])
  else (st, hist)

/-- One solicited command of the post-feedback menu: the (classified)
command string and the inputs a repeat cycle would consume. -/
structure MenuCmdInput where
  command : String
  cycle : RepeatCycleInput
deriving DecidableEq

/-- The post-feedback command menu (`speaking_practicing.py:527-575`):
`while True`, solicit a command; `'repeat'` runs the repeat cycle and
then `break`s; `'next'` or `'enter'` `break`s; anything else re-prompts.
The result's Bool is `true` when the loop exited via `break` (the
terminal state that advances the outer loop) and `false` when the
modelled command stream was exhausted while still awaiting a
command. -/
def menu_loop (question difficulty : String) (st : ℚ)
    (hist : List (String × String)) :
    List MenuCmdInput → ℚ × List (String × String) × Bool
  | [] => (st, hist, false)
  | m :: rest =>
    if m.command = "repeat" then
      let r := repeat_cycle st hist m.cycle question difficulty
      (r.1, r.2, true)
    else if m.command = "next" ∨ m.command = "enter" then (st, hist, true)
    else menu_loop question difficulty st hist rest

/-- How one iteration of the question `for` loop ends: fall through or
`continue` (the loop advances to the next question), or `break` (the
session finishes). -/
inductive LoopAction where
  | advance
  | finish
deriving DecidableEq

/-- One iteration of the question loop of `practice_conversation`
(`speaking_practicing.py:466-575`): measure the capture, add its
duration to the speaking-time accumulator (line 484, before any
classification), then classify the answer — empty answers `continue`,
next/skip phrases `continue`, finish phrases `break`, repeat phrases
re-speak the question and `continue` (in a Python `for` loop,
`continue` moves to the NEXT question) — otherwise obtain feedback and,
unless this is the last question, run the post-feedback menu. -/
def question_iteration (st : ℚ) (hist : List (String × String))
    (cap : CaptureInput) (question difficulty : String)
    (backend : BackendOutcome) (menu : List MenuCmdInput)
    (is_last : Bool) : ℚ × List (String × String) × LoopAction :=
  let user_response := capture_text cap
  let speaking_duration := capture_duration cap
  let st1 := st + speaking_duration
  if user_response = "" then (st1, hist, LoopAction.advance)
  else if py_lower_s user_response ∈
      (["next question", "next", "skip"] : List String) then
    (st1, hist, LoopAction.advance)
  else if py_lower_s user_response ∈
      (["finish", "stop", "quit", "done"] : List String) then
    (st1, hist, LoopAction.finish)
  else if py_lower_s user_response ∈
      (["repeat question", "repeat", "again"] : List String) then
    (st1, hist, LoopAction.advance)
  else
    let _feedback := get_ai_feedback user_response question difficulty backend
    if is_last then (st1, hist, LoopAction.advance)
    else
      let r := menu_loop question difficulty st1 hist menu
      (r.1, r.2.1, LoopAction.advance)

/-- The `for question in questions` mechanics: an iteration ending in
fall-through or `continue` presents the element at the next index; a
`break` presents nothing further. -/
def next_question_index (i : Nat) (a : LoopAction) : Option Nat :=
  match a with
  | LoopAction.advance => some (i + 1)
  | LoopAction.finish => none

/-- The speaking-time accumulator after a list of question-loop
captures: `self.speaking_time` starts at 0 in `__init__`
(`speaking_practicing.py:27`) and each question iteration executes
`self.speaking_time += speaking_duration`
(`speaking_practicing.py:484`). -/
def session_speaking_time (caps : List CaptureInput) : ℚ :=
  caps.foldl (fun st c => st + capture_duration c) 0

/-- Chronological consistency of a session trace: from session start,
each capture's two clock readings are taken in order, and the reading
used for the session statistics comes after everything else.  This is
what the single-threaded source observes from a monotone clock. -/
def chronOrder : ℚ → List CaptureInput → ℚ → Bool
  | t0, [], t1 => decide (t0 ≤ t1)
  | t0, c :: rest, t1 =>
    decide (t0 ≤ c.speaking_start) &&
      decide (c.speaking_start ≤ c.speaking_end) &&
      chronOrder c.speaking_end rest t1

/-- Python `text.split('. ')` over character lists: split at each
non-overlapping left-to-right occurrence of the two-character
separator (`speaking_practicing.py:332`). -/
def splitDotSpace : List Char → List (List Char)
  | [] => [[]]
  | '.' :: ' ' :: rest => [] :: splitDotSpace rest
  | c :: rest =>
    match splitDotSpace rest with
    | [] => [[c]]
    | h :: t => (c :: h) :: t

/-- The accumulation loop of `split_text_for_tts`
(`speaking_practicing.py:331-344`): greedily pack sentences while the
Python check `len(current_chunk + sentence) <= max_length` passes,
re-appending `'. '` to each packed sentence; on overflow emit the
stripped current chunk (if non-empty) and restart from the offending
sentence; at the end emit the stripped remainder (if non-empty). -/
def tts_fold (max_length : Nat) :
    List (List Char) → List Char → List (List Char) → List (List Char)
  | [], current_chunk, chunks =>
    if current_chunk.isEmpty then chunks else chunks ++ [py_strip current_chunk]
  | s :: rest, current_chunk, chunks =>
    if current_chunk.length + s.length ≤ max_length then
      tts_fold max_length rest (current_chunk ++ (s ++ ['.', ' '])) chunks
    else
      tts_fold max_length rest (s ++ ['.', ' '])
        (if current_chunk.isEmpty then chunks else chunks ++ [py_strip current_chunk])

/-- `split_text_for_tts` (`speaking_practicing.py:326-346`): a text
whose length is within the ceiling is returned unchanged as a single
chunk; otherwise the text is split at `'. '` sentence boundaries and
re-packed greedily by `tts_fold`. -/
def split_text_for_tts (text : String) (max_length : Nat) : List String :=
  if text.length ≤ max_length then [text]
  else (tts_fold max_length (splitDotSpace text.toList) [] []).map String.mk

/-- A finished chunk is within the ceiling plus the re-appended period,
unless it wraps a single sentence that itself exceeds the ceiling. -/
def ChunkOk (max_length : Nat) (S : List (List Char)) (c : List Char) : Prop :=
  c.length ≤ max_length + 1 ∨
    ∃ s ∈ S, max_length < s.length ∧ c.length ≤ s.length + 1

/-- Invariant of the chunk under construction: empty, or ending in the
trailing space of `'. '` and bounded by the ceiling plus the separator
unless it wraps an oversized sentence. -/
def CurrentOk (max_length : Nat) (S : List (List Char)) (cur : List Char) : Prop :=
  cur = [] ∨
    ((∃ cur0, cur = cur0 ++ [' ']) ∧
      (cur.length ≤ max_length + 2 ∨
        ∃ s ∈ S, max_length < s.length ∧ cur.length ≤ s.length + 2))

/-- Claim C2: command classification is a total deterministic function
into `{"next", "repeat", "enter"}`; matching is case-insensitive
substring search evaluated with the next-lexicon first, then the
repeat-lexicon, then the enter-lexicon, and any unmatched string
defaults to `"enter"`. -/
theorem listen_for_command_classification (s : String) :
    (listen_for_command s = "next" ∨ listen_for_command s = "repeat" ∨
      listen_for_command s = "enter") ∧
    (matches_any (py_lower s) next_lexicon = true →
      listen_for_command s = "next") ∧
    (matches_any (py_lower s) next_lexicon = false →
      matches_any (py_lower s) repeat_lexicon = true →
      listen_for_command s = "repeat") ∧
    (matches_any (py_lower s) next_lexicon = false →
      matches_any (py_lower s) repeat_lexicon = false →
      listen_for_command s = "enter") := by
  unfold listen_for_command
  cases hn : matches_any (py_lower s) next_lexicon <;>
    cases hr : matches_any (py_lower s) repeat_lexicon <;>
      cases he : matches_any (py_lower s) enter_lexicon <;>
        simp [hn, hr, he]

/-- Witness for C2, on the spec's three scenario utterances (with the
case-insensitivity exercised by capital letters). -/
theorem listen_for_command_classification_witness :
    listen_for_command "Next question please" = "next" ∧
    listen_for_command "Can you repeat that" = "repeat" ∧
    listen_for_command "hmm" = "enter" :=
  ⟨(listen_for_command_classification "Next question please").2.1 (by decide),
   (listen_for_command_classification "Can you repeat that").2.2.1
     (by decide) (by decide),
   (listen_for_command_classification "hmm").2.2.2 (by decide) (by decide)⟩

/-- An unrecognized-speech or no-speech-timeout iteration is a counted
retry failure. -/
theorem runAttempt_fail_of (a : AttemptInput)
    (h : a.outcome = .unknownValue ∨ a.outcome = .waitTimeout) :
    runAttempt a = .retryFail := by
  rcases h with h | h <;> simp [runAttempt, h]

/-- A service/network error iteration falls back to typed entry. -/
theorem runAttempt_typed_of (a : AttemptInput) (e : String)
    (h : a.outcome = .requestError e) : runAttempt a = .typedFallback := by
  simp [runAttempt, h]

/-- Claim C4: the transcription retry policy of `listen_for_speech`.
A service/network failure falls back to typed entry immediately; an
unrecognized-speech failure or a no-speech timeout is retried, and a
second such failure (the budget of 2 attempts) falls back to typed
entry; a service error on the retry also falls back; a successful
retry returns its transcript.  The function is total into `String`,
so every path yields some answer and no recognition error
propagates. -/
theorem listen_for_speech_retry_policy (a1 a2 : AttemptInput) (typed : String) :
    ((∃ e, a1.outcome = .requestError e) →
      listen_for_speech a1 a2 typed = typed) ∧
    ((a1.outcome = .unknownValue ∨ a1.outcome = .waitTimeout) →
      ((a2.outcome = .unknownValue ∨ a2.outcome = .waitTimeout) →
        listen_for_speech a1 a2 typed = typed) ∧
      ((∃ e, a2.outcome = .requestError e) →
        listen_for_speech a1 a2 typed = typed) ∧
      (∀ t, runAttempt a2 = .ret t → listen_for_speech a1 a2 typed = t)) ∧
    (∀ t, runAttempt a1 = .ret t → listen_for_speech a1 a2 typed = t) := by
  refine ⟨?_, ?_, ?_⟩
  · rintro ⟨e, he⟩
    simp [listen_for_speech, runAttempt_typed_of a1 e he]
  · intro h1
    have hf1 : runAttempt a1 = .retryFail := runAttempt_fail_of a1 h1
    refine ⟨?_, ?_, ?_⟩
    · intro h2
      simp [listen_for_speech, hf1, runAttempt_fail_of a2 h2]
    · rintro ⟨e, he⟩
      simp [listen_for_speech, hf1, runAttempt_typed_of a2 e he]
    · intro t ht
      simp [listen_for_speech, hf1, ht]
  · intro t ht
    simp [listen_for_speech, ht]

/-- Witness for C4: an immediate service-error fallback, the spec's
scenario of consecutive recognition failures exhausting the budget of
2, and a successful second attempt. -/
theorem listen_for_speech_retry_policy_witness :
    listen_for_speech ⟨.requestError "connection refused", "", .unknownValue⟩
      ⟨.unknownValue, "", .unknownValue⟩ "typed answer" = "typed answer" ∧
    listen_for_speech ⟨.unknownValue, "", .unknownValue⟩
      ⟨.waitTimeout, "", .unknownValue⟩ "typed answer" = "typed answer" ∧
    listen_for_speech ⟨.unknownValue, "", .unknownValue⟩
      ⟨.recognized "I enjoy reading science fiction", "", .unknownValue⟩
      "typed answer" = "I enjoy reading science fiction" :=
  ⟨(listen_for_speech_retry_policy _ _ _).1 ⟨"connection refused", rfl⟩,
   ((listen_for_speech_retry_policy _ _ _).2.1 (Or.inl rfl)).1 (Or.inr rfl),
   ((listen_for_speech_retry_policy _ _ _).2.1 (Or.inl rfl)).2.2
     "I enjoy reading science fiction" (by decide)⟩

/-- Claim C7: a recognized transcript of fewer than 2 words triggers
the short-answer extension prompt, whose single optional follow-up
capture is appended to the same answer; a transcript of 2 or more
words is returned unchanged, independently of the extension inputs
(so no extension prompt is consulted). -/
theorem short_answer_extension (t choice : String) (more : RecogOutcome) :
    (2 ≤ py_word_count t →
      runAttempt ⟨.recognized t, choice, more⟩ = .ret t) ∧
    (py_word_count t < 2 → says_say_more choice = true →
      ∀ m, more = .recognized m →
        runAttempt ⟨.recognized t, choice, more⟩ = .ret (t ++ " " ++ m)) ∧
    (py_word_count t < 2 → says_say_more choice = false →
      runAttempt ⟨.recognized t, choice, more⟩ = .ret t) := by
  refine ⟨?_, ?_, ?_⟩
  · intro h
    have h2 : ¬ py_word_count t < 2 := by omega
    simp [runAttempt, h2]
  · intro h1 hs m hm
    simp [runAttempt, h1, hs, hm]
  · intro h1 hs
    simp [runAttempt, h1, hs]

/-- Witness for C7 on the spec's scenarios: a 10-word transcript is
returned without the extension, a 1-word transcript (`"yes"`) with a
`"say more"` reply gets the follow-up appended, and with any other
reply is returned as is. -/
theorem short_answer_extension_witness :
    runAttempt ⟨.recognized "I think learning English every day is genuinely great fun",
      "x", .recognized "y"⟩ =
      .ret "I think learning English every day is genuinely great fun" ∧
    runAttempt ⟨.recognized "yes", "say more", .recognized "I really mean it"⟩ =
      .ret ("yes" ++ " " ++ "I really mean it") ∧
    runAttempt ⟨.recognized "yes", "continue", .recognized "ignored"⟩ = .ret "yes" :=
  ⟨(short_answer_extension _ "x" (.recognized "y")).1 (by decide),
   (short_answer_extension "yes" "say more" (.recognized "I really mean it")).2.1
     (by decide) (by decide) "I really mean it" rfl,
   (short_answer_extension "yes" "continue" (.recognized "ignored")).2.2
     (by decide) (by decide)⟩

/-- Claim C3 counterexample: a clean backend success whose content is
the empty string is returned verbatim, so `get_ai_feedback` yields the
empty string — the "always a non-empty feedback string" guarantee
fails on this backend outcome. -/
theorem get_ai_feedback_empty_content_counterexample :
    get_ai_feedback "hello" "Tell me about yourself and where you're from"
      "beginner" (.ok ⟨true, some ⟨some ""⟩⟩) = "" := by
  decide

/-- Claim C3 as amended: `get_ai_feedback` never raises (it is total
into `String`); on a clean backend success it returns the backend's
content verbatim, and on every failure outcome — raised exception,
falsy reply, missing `'message'`, missing `'content'` — it returns a
non-empty fallback string. -/
theorem get_ai_feedback_total_fallback (u q d : String) (o : BackendOutcome) :
    (∀ c, backend_success_content o = some c → get_ai_feedback u q d o = c) ∧
    (backend_success_content o = none → get_ai_feedback u q d o ≠ "") := by
  constructor
  · intro c hc
    rcases o with ⟨tru, msg⟩ | e
    · rcases tru with _ | _
      · simp [backend_success_content] at hc
      · rcases msg with _ | ⟨cnt⟩
        · simp [backend_success_content] at hc
        · rcases cnt with _ | c'
          · simp [backend_success_content] at hc
          · simp [backend_success_content] at hc
            simp [get_ai_feedback, hc]
    · simp [backend_success_content] at hc
  · intro h0
    rcases o with ⟨tru, msg⟩ | e
    · rcases tru with _ | _
      · rcases msg with _ | ⟨cnt⟩
        · simp only [get_ai_feedback]
          decide
        · simp only [get_ai_feedback]
          decide
      · rcases msg with _ | ⟨cnt⟩
        · simp only [get_ai_feedback]
          decide
        · rcases cnt with _ | c'
          · simp only [get_ai_feedback]
            decide
          · exact absurd h0 (by simp [backend_success_content])
    · show "Good effort! Let's continue practicing. (Error: " ++ e ++ ")" ≠ ""
      intro hcontra
      have hlen := congrArg String.length hcontra
      rw [String.length_append, String.length_append,
        show ("" : String).length = 0 from rfl] at hlen
      have h1 : 0 < "Good effort! Let's continue practicing. (Error: ".length := by
        decide
      omega

/-- Witness for C3's amended theorem: a clean success is passed
through verbatim, and a raised exception yields a non-empty fallback. -/
theorem get_ai_feedback_total_fallback_witness :
    get_ai_feedback "my answer" "q" "beginner"
      (.ok ⟨true, some ⟨some "Nice work! Keep going."⟩⟩) = "Nice work! Keep going." ∧
    get_ai_feedback "my answer" "q" "beginner" (.raised "timeout") ≠ "" :=
  ⟨(get_ai_feedback_total_fallback "my answer" "q" "beginner" _).1
     "Nice work! Keep going." rfl,
   (get_ai_feedback_total_fallback "my answer" "q" "beginner" _).2 rfl⟩

/-- Claim C6 counterexample: with speech available, positive speaking
time and a zero wall-clock session duration, the percentage branch is
taken and the division `speaking_time / session_seconds` is performed
with a zero divisor — there is no guard on the session duration. -/
theorem stats_zero_duration_division_counterexample :
    (show_practice_stats true 5 0).isSome = true ∧
    show_practice_stats true 5 0 = some (5 / 0 * 100) := by
  constructor
  · decide
  · rfl

/-- Claim C6 as amended: the percentage branch is guarded by speech
availability and `speaking_time > 0`, not by the session duration;
consequently the division is skipped whenever the speaking time is
zero — in particular in every state satisfying the accumulator
invariant `speaking_time ≤ session_duration` whose session duration is
zero — while a state with positive speaking time and zero duration
would divide by zero. -/
theorem show_practice_stats_guard (sa : Bool) (st dur : ℚ) :
    ((show_practice_stats sa st dur).isSome ↔ (sa = true ∧ 0 < st)) ∧
    (st ≤ dur → dur = 0 → show_practice_stats sa st dur = none) := by
  constructor
  · by_cases h : sa = true ∧ 0 < st <;> simp [show_practice_stats, h]
  · intro hle hdur
    have hst : ¬ (sa = true ∧ 0 < st) := by
      rintro ⟨-, hpos⟩
      rw [hdur] at hle
      exact absurd (lt_of_lt_of_le hpos hle) (lt_irrefl 0)
    simp [show_practice_stats, hst]

/-- Witness for C6's amended theorem: a zero-duration session with
zero speaking time skips the division, and a normal session takes the
branch. -/
theorem show_practice_stats_guard_witness :
    show_practice_stats true 0 0 = none ∧
    (show_practice_stats true 3 7).isSome = true :=
  ⟨(show_practice_stats_guard true 0 0).2 le_rfl rfl,
   (show_practice_stats_guard true 3 7).1.mpr ⟨rfl, by norm_num⟩⟩

/-- The repeat cycle leaves the speaking-time accumulator unchanged. -/
theorem repeat_cycle_speaking_time (st : ℚ) (hist : List (String × String))
    (r : RepeatCycleInput) (q d : String) :
    (repeat_cycle st hist r q d).1 = st := by
  simp only [repeat_cycle]
  split <;> rfl

/-- The post-feedback menu leaves the speaking-time accumulator
unchanged, whatever commands it processes. -/
theorem menu_loop_speaking_time (q d : String) (st : ℚ)
    (hist : List (String × String)) (menu : List MenuCmdInput) :
    (menu_loop q d st hist menu).1 = st := by
  induction menu with
  | nil => rfl
  | cons m rest ih =>
    simp only [menu_loop]
    split
    · exact repeat_cycle_speaking_time st hist m.cycle q d
    · split
      · rfl
      · exact ih

/-- Claim C10: in every question iteration the measured duration of the
initial capture is added to the speaking-time accumulator before the
utterance is classified — the accumulator update is the same whether
the utterance turns out empty, a skip, a finish, a repeat, or a
substantive answer — whereas a repeat cycle in the post-feedback menu
measures its new capture but never touches the accumulator. -/
theorem speaking_time_update_frame (st : ℚ) (hist : List (String × String))
    (cap : CaptureInput) (q d : String) (backend : BackendOutcome)
    (menu : List MenuCmdInput) (is_last : Bool) (st2 : ℚ)
    (hist2 : List (String × String)) (r : RepeatCycleInput) :
    (question_iteration st hist cap q d backend menu is_last).1 =
      st + capture_duration cap ∧
    (repeat_cycle st2 hist2 r q d).1 = st2 := by
  constructor
  · simp only [question_iteration]
    split_ifs <;> simp [menu_loop_speaking_time]
  · exact repeat_cycle_speaking_time st2 hist2 r q d

/-- Claim C1 (evaluation at the failing input): answering question 0
with the bare utterance `"repeat"` makes the iteration end in
`continue`, so the next capture is for question index 1 — the source
advances past the question it just promised to repeat. -/
theorem repeat_utterance_advances_index :
    next_question_index 0
      (question_iteration 0 []
        ⟨⟨.recognized "repeat", "", .unknownValue⟩,
         ⟨.unknownValue, "", .unknownValue⟩, "", 0, 1⟩
        "Tell me about yourself and where you're from" "beginner"
        (.raised "offline") [] false).2.2 = some 1 ∧
    some 1 ≠ (some 0 : Option Nat) := by
  constructor
  · decide
  · decide

/-- Claim C5 counterexample: with the single menu command `"repeat"` —
no `next`/`enter` ever received — the repeat cycle completes (the new
answer is collected and its feedback appended to the history) and the
menu then `break`s to the terminal state instead of remaining in
`awaiting_command`. -/
theorem menu_repeat_reaches_terminal_counterexample :
    (menu_loop "Describe your family to me" "beginner" 0 []
      [⟨"repeat",
        ⟨⟨⟨.recognized "I visited Paris last summer", "", .unknownValue⟩,
          ⟨.unknownValue, "", .unknownValue⟩, "", 0, 1⟩,
         .ok ⟨true, some ⟨some "Nice answer!"⟩⟩⟩⟩]).2.2 = true ∧
    (menu_loop "Describe your family to me" "beginner" 0 []
      [⟨"repeat",
        ⟨⟨⟨.recognized "I visited Paris last summer", "", .unknownValue⟩,
          ⟨.unknownValue, "", .unknownValue⟩, "", 0, 1⟩,
         .ok ⟨true, some ⟨some "Nice answer!"⟩⟩⟩⟩]).2.1 =
      [("user", "I visited Paris last summer"), ("assistant", "Nice answer!")] ∧
    ¬ ("repeat" = "next" ∨ "repeat" = "enter") := by
  refine ⟨?_, ?_, ?_⟩ <;> decide

/-- Claim C5 as amended: on `repeat` the menu runs the repeat cycle
(appending the new answer and its feedback to the history) and then
unconditionally moves to the terminal state, advancing the outer loop;
on `next`/`enter` it moves to the terminal state unchanged; it remains
in `awaiting_command`, re-prompting, exactly for commands that are none
of `repeat`/`next`/`enter`. -/
theorem post_feedback_menu_transitions (q d : String) (st : ℚ)
    (hist : List (String × String)) (m : MenuCmdInput)
    (rest : List MenuCmdInput) :
    (m.command = "repeat" →
      menu_loop q d st hist (m :: rest) =
        ((repeat_cycle st hist m.cycle q d).1,
         (repeat_cycle st hist m.cycle q d).2, true)) ∧
    (m.command = "next" ∨ m.command = "enter" →
      menu_loop q d st hist (m :: rest) = (st, hist, true)) ∧
    (m.command ≠ "repeat" → m.command ≠ "next" → m.command ≠ "enter" →
      menu_loop q d st hist (m :: rest) = menu_loop q d st hist rest) := by
  refine ⟨?_, ?_, ?_⟩
  · intro h
    simp [menu_loop, h]
  · rintro (h | h) <;> simp [menu_loop, h]
  · intro h1 h2 h3
    simp [menu_loop, h1, h2, h3]

/-- Witness for C5's amended theorem at concrete inputs: a repeat
command terminates the menu after its cycle, a next command terminates
it unchanged, and an unclassifiable command leaves it awaiting (the
modelled command stream ends with the flag still `false`). -/
theorem post_feedback_menu_transitions_witness :
    menu_loop "q" "beginner" 0 []
      [⟨"repeat",
        ⟨⟨⟨.unknownValue, "", .unknownValue⟩, ⟨.unknownValue, "", .unknownValue⟩,
          "typed", 0, 0⟩, .raised "offline"⟩⟩] =
      ((repeat_cycle 0 []
          ⟨⟨⟨.unknownValue, "", .unknownValue⟩, ⟨.unknownValue, "", .unknownValue⟩,
            "typed", 0, 0⟩, .raised "offline"⟩ "q" "beginner").1,
       (repeat_cycle 0 []
          ⟨⟨⟨.unknownValue, "", .unknownValue⟩, ⟨.unknownValue, "", .unknownValue⟩,
            "typed", 0, 0⟩, .raised "offline"⟩ "q" "beginner").2, true) ∧
    menu_loop "q" "beginner" 0 []
      [⟨"next",
        ⟨⟨⟨.unknownValue, "", .unknownValue⟩, ⟨.unknownValue, "", .unknownValue⟩,
          "typed", 0, 0⟩, .raised "offline"⟩⟩] = (0, [], true) ∧
    menu_loop "q" "beginner" 0 []
      [⟨"hello",
        ⟨⟨⟨.unknownValue, "", .unknownValue⟩, ⟨.unknownValue, "", .unknownValue⟩,
          "typed", 0, 0⟩, .raised "offline"⟩⟩] = (0, [], false) := by
  refine ⟨?_, ?_, ?_⟩
  · exact (post_feedback_menu_transitions "q" "beginner" 0 [] _ []).1 rfl
  · exact (post_feedback_menu_transitions "q" "beginner" 0 [] _ []).2.1 (Or.inl rfl)
  · rw [(post_feedback_menu_transitions "q" "beginner" 0 [] _ []).2.2
      (by decide) (by decide) (by decide)]
    rfl

/-- The accumulator fold from an arbitrary start value is that value
plus the sum of the measured durations. -/
theorem speaking_foldl_eq (caps : List CaptureInput) (a : ℚ) :
    caps.foldl (fun st c => st + capture_duration c) a =
      a + (caps.map capture_duration).sum := by
  induction caps generalizing a with
  | nil => simp
  | cons c rest ih => simp [List.foldl_cons, ih, add_assoc]

/-- In a chronologically consistent trace every measured duration is
non-negative. -/
theorem chronOrder_duration_nonneg (caps : List CaptureInput) :
    ∀ t0 t1 : ℚ, chronOrder t0 caps t1 = true →
      ∀ c ∈ caps, 0 ≤ capture_duration c := by
  induction caps with
  | nil =>
    intro t0 t1 _ c hc
    simp at hc
  | cons c rest ih =>
    intro t0 t1 h c' hc'
    simp only [chronOrder, Bool.and_eq_true, decide_eq_true_eq] at h
    rcases List.mem_cons.mp hc' with hc' | hc'
    · subst hc'
      have h2 := h.1.2
      unfold capture_duration
      linarith
    · exact ih c.speaking_end t1 h.2 c' hc'

/-- In a chronologically consistent trace the summed durations fit in
the wall-clock window. -/
theorem chronOrder_sum_le (caps : List CaptureInput) :
    ∀ t0 t1 : ℚ, chronOrder t0 caps t1 = true →
      (caps.map capture_duration).sum ≤ t1 - t0 := by
  induction caps with
  | nil =>
    intro t0 t1 h
    simp only [chronOrder, decide_eq_true_eq] at h
    simp
    linarith
  | cons c rest ih =>
    intro t0 t1 h
    simp only [chronOrder, Bool.and_eq_true, decide_eq_true_eq] at h
    have hrest := ih c.speaking_end t1 h.2
    have h1 := h.1.1
    have h2 := h.1.2
    simp only [List.map_cons, List.sum_cons]
    have hd : capture_duration c = c.speaking_end - c.speaking_start := rfl
    linarith

/-- Claim C9: across a chronologically consistent session trace the
speaking-time accumulator is monotonically non-decreasing turn over
turn (each turn adds a non-negative measured duration; nothing ever
subtracts), and its final value never exceeds the wall-clock session
duration. -/
theorem speaking_time_monotone_and_bounded (session_start stats_time : ℚ)
    (caps : List CaptureInput)
    (h : chronOrder session_start caps stats_time = true) :
    (Monotone fun n => session_speaking_time (caps.take n)) ∧
    session_speaking_time caps ≤ stats_time - session_start := by
  constructor
  · apply monotone_nat_of_le_succ
    intro n
    show session_speaking_time (caps.take n) ≤
      session_speaking_time (caps.take (n + 1))
    unfold session_speaking_time
    rw [List.take_succ, speaking_foldl_eq, speaking_foldl_eq,
      List.map_append, List.sum_append]
    have hnn : 0 ≤ ((caps[n]?.toList).map capture_duration).sum := by
      cases hc : caps[n]? with
      | none => simp
      | some c =>
        have hmem : c ∈ caps := List.getElem?_mem hc
        simp only [Option.toList_some, List.map_cons, List.map_nil,
          List.sum_cons, List.sum_nil, add_zero]
        exact chronOrder_duration_nonneg caps session_start stats_time h c hmem
    linarith
  · unfold session_speaking_time
    rw [speaking_foldl_eq]
    have := chronOrder_sum_le caps session_start stats_time h
    linarith

/-- Witness for C9 on a concrete two-turn trace inside a session
window from time 0 to time 10. -/
theorem speaking_time_monotone_and_bounded_witness :
    session_speaking_time
      [⟨⟨.unknownValue, "", .unknownValue⟩, ⟨.unknownValue, "", .unknownValue⟩,
        "a", 1, 2⟩,
       ⟨⟨.unknownValue, "", .unknownValue⟩, ⟨.unknownValue, "", .unknownValue⟩,
        "b", 3, 5⟩] ≤ 10 - 0 ∧
    session_speaking_time
      ([⟨⟨.unknownValue, "", .unknownValue⟩, ⟨.unknownValue, "", .unknownValue⟩,
         "a", 1, 2⟩,
        ⟨⟨.unknownValue, "", .unknownValue⟩, ⟨.unknownValue, "", .unknownValue⟩,
         "b", 3, 5⟩].take 1) ≤
      session_speaking_time
        ([⟨⟨.unknownValue, "", .unknownValue⟩, ⟨.unknownValue, "", .unknownValue⟩,
           "a", 1, 2⟩,
          ⟨⟨.unknownValue, "", .unknownValue⟩, ⟨.unknownValue, "", .unknownValue⟩,
           "b", 3, 5⟩].take 2) :=
  ⟨(speaking_time_monotone_and_bounded 0 10 _ (by decide)).2,
   (speaking_time_monotone_and_bounded 0 10 _ (by decide)).1
     (by norm_num : (1 : ℕ) ≤ 2)⟩

/-- Dropping a prefix never lengthens a list. -/
theorem length_dropWhile_le_ch (p : Char → Bool) (l : List Char) :
    (l.dropWhile p).length ≤ l.length := by
  induction l with
  | nil => simp
  | cons a t ih =>
    rw [List.dropWhile_cons]
    split
    · exact Nat.le_succ_of_le ih
    · exact Nat.le_refl _

/-- Stripping never lengthens. -/
theorem py_strip_length_le (l : List Char) : (py_strip l).length ≤ l.length := by
  unfold py_strip
  rw [List.length_reverse]
  calc ((l.dropWhile Char.isWhitespace).reverse.dropWhile Char.isWhitespace).length
      ≤ (l.dropWhile Char.isWhitespace).reverse.length :=
        length_dropWhile_le_ch _ _
    _ = (l.dropWhile Char.isWhitespace).length := List.length_reverse _
    _ ≤ l.length := length_dropWhile_le_ch _ _

/-- A trailing space disappears under `strip`. -/
theorem py_strip_append_space (l : List Char) :
    py_strip (l ++ [' ']) = py_strip l := by
  unfold py_strip
  rw [List.dropWhile_append]
  by_cases h : (l.dropWhile Char.isWhitespace).isEmpty
  · have h0 : l.dropWhile Char.isWhitespace = [] := by
      simpa [List.isEmpty_iff] using h
    rw [if_pos h, h0]
    simp [List.dropWhile]
  · rw [if_neg h]
    have : ((l.dropWhile Char.isWhitespace) ++ [' ']).reverse =
        ' ' :: (l.dropWhile Char.isWhitespace).reverse := by
      simp
    rw [this, List.dropWhile_cons_of_pos (by decide)]

/-- A non-empty chunk under construction strips to a finished chunk
within the bound. -/
theorem chunk_of_current (max_length : Nat) (S : List (List Char))
    (cur : List Char) (hcur : CurrentOk max_length S cur)
    (hne : ¬ cur.isEmpty) : ChunkOk max_length S (py_strip cur) := by
  rcases hcur with rfl | ⟨⟨cur0, rfl⟩, hlen⟩
  · simp at hne
  · have hstrip := py_strip_append_space cur0
    have hle := py_strip_length_le cur0
    have hlen0 : (cur0 ++ [' ']).length = cur0.length + 1 := by simp
    rcases hlen with h | ⟨s, hs, hbig, hle2⟩
    · left
      rw [hstrip]
      omega
    · right
      refine ⟨s, hs, hbig, ?_⟩
      rw [hstrip]
      omega

/-- Loop invariant of `tts_fold`: starting from an acceptable chunk
under construction and acceptable finished chunks, every chunk it
returns is acceptable. -/
theorem tts_fold_chunks_ok (max_length : Nat) (S : List (List Char)) :
    ∀ (rest : List (List Char)) (cur : List Char) (chunks : List (List Char)),
      (∀ s ∈ rest, s ∈ S) → CurrentOk max_length S cur →
      (∀ c ∈ chunks, ChunkOk max_length S c) →
      ∀ c ∈ tts_fold max_length rest cur chunks, ChunkOk max_length S c := by
  intro rest
  induction rest with
  | nil =>
    intro cur chunks _ hcur hchunks c hc
    simp only [tts_fold] at hc
    by_cases he : cur.isEmpty
    · rw [if_pos he] at hc
      exact hchunks c hc
    · rw [if_neg he] at hc
      rcases List.mem_append.mp hc with hc | hc
      · exact hchunks c hc
      · have := List.mem_singleton.mp hc
        subst this
        exact chunk_of_current max_length S cur hcur he
  | cons s rest ih =>
    intro cur chunks hsub hcur hchunks c hc
    simp only [tts_fold] at hc
    by_cases hfit : cur.length + s.length ≤ max_length
    · rw [if_pos hfit] at hc
      refine ih (cur ++ (s ++ ['.', ' '])) chunks
        (fun x hx => hsub x (List.mem_cons_of_mem s hx)) ?_ hchunks c hc
      right
      refine ⟨⟨cur ++ (s ++ ['.']), by simp⟩, Or.inl ?_⟩
      simp only [List.length_append, List.length_cons, List.length_nil]
      omega
    · rw [if_neg hfit] at hc
      have hcurnew : CurrentOk max_length S (s ++ ['.', ' ']) := by
        right
        refine ⟨⟨s ++ ['.'], by simp⟩, ?_⟩
        by_cases hbig : s.length ≤ max_length
        · left
          simp only [List.length_append, List.length_cons, List.length_nil]
          omega
        · right
          refine ⟨s, hsub s (List.mem_cons_self s rest), by omega, ?_⟩
          simp only [List.length_append, List.length_cons, List.length_nil]
          omega
      have hchunks' : ∀ c' ∈ (if cur.isEmpty then chunks
          else chunks ++ [py_strip cur]), ChunkOk max_length S c' := by
        by_cases he : cur.isEmpty
        · rw [if_pos he]
          exact hchunks
        · rw [if_neg he]
          intro c' hc'
          rcases List.mem_append.mp hc' with h' | h'
          · exact hchunks c' h'
          · have := List.mem_singleton.mp h'
            subst this
            exact chunk_of_current max_length S cur hcur he
      exact ih (s ++ ['.', ' ']) _
        (fun x hx => hsub x (List.mem_cons_of_mem s hx)) hcurnew hchunks' c hc

set_option maxRecDepth 8000 in
/-- Claim C8 counterexample: a 201-character text with no sentence
boundary exceeds the default ceiling of 200, and the single chunk
returned has length 202 (the whole text with `'. '` re-appended and the
trailing space stripped) — above the ceiling the claim promises. -/
theorem split_text_exceeds_ceiling_counterexample :
    (split_text_for_tts (String.mk (List.replicate 201 'a')) 200).map
        String.length = [202] ∧
    ¬ (202 ≤ 200) := by
  constructor
  · decide
  · decide

/-- Claim C8 as amended: a text whose length does not exceed the
ceiling is returned unchanged as a single chunk; otherwise the text is
split at `'. '` sentence boundaries and every returned chunk has length
at most `max_length + 1` (the ceiling plus the re-appended period),
except that a single sentence longer than the ceiling is emitted as one
oversized chunk of at most its own length plus the period. -/
theorem split_text_for_tts_ceiling (text : String) (max_length : Nat) :
    (text.length ≤ max_length → split_text_for_tts text max_length = [text]) ∧
    ∀ c ∈ split_text_for_tts text max_length,
      c.length ≤ max_length + 1 ∨
        ∃ s ∈ splitDotSpace text.toList,
          max_length < s.length ∧ c.length ≤ s.length + 1 := by
  constructor
  · intro h
    simp [split_text_for_tts, h]
  · intro c hc
    by_cases h : text.length ≤ max_length
    · simp only [split_text_for_tts, if_pos h] at hc
      have := List.mem_singleton.mp hc
      subst this
      left
      omega
    · simp only [split_text_for_tts, if_neg h] at hc
      rcases List.mem_map.mp hc with ⟨l, hl, rfl⟩
      have hok := tts_fold_chunks_ok max_length (splitDotSpace text.toList)
        (splitDotSpace text.toList) [] [] (fun x hx => hx) (Or.inl rfl)
        (by intro c' hc'; simp at hc') l hl
      have hmklen : (String.mk l).length = l.length := rfl
      rcases hok with h1 | ⟨s, hs, hbig, hle⟩
      · left
        rw [hmklen]
        exact h1
      · right
        refine ⟨s, hs, hbig, ?_⟩
        rw [hmklen]
        exact hle

set_option maxRecDepth 8000 in
/-- Witness for C8's amended theorem: a short text is returned
unchanged, and on a 202-character two-sentence text each emitted
chunk (here the first, a 100-character sentence plus its period) stays
within the ceiling plus one. -/
theorem split_text_for_tts_ceiling_witness :
    split_text_for_tts "Hello" 200 = ["Hello"] ∧
    (String.mk (List.replicate 100 'a' ++ ['.'])).length ≤ 200 + 1 := by
  constructor
  · exact (split_text_for_tts_ceiling "Hello" 200).1 (by decide)
  · exact ((split_text_for_tts_ceiling
      (String.mk (List.replicate 100 'a' ++ '.' :: ' ' :: List.replicate 100 'a'))
      200).2
      (String.mk (List.replicate 100 'a' ++ ['.'])) (by decide)).resolve_right
      (by decide)

